import Mathlib

/-!
Shallow embedding of `crates/lunar/src/conv.rs` (hayom): the bidirectional
civil-date ⇄ Rata Die converter spanning the 1752 Julian→Gregorian switch.

Machine integers are modelled as `Nat`/`Int`.  All intermediate values in the
source are `u64` and stay far below `2 ^ 64` on the reachable domain (years
are confined to `-9999..=9999` by the date library), so wrap-around is never
observable on additions and multiplications; a Rust arithmetic *underflow*
(`a - b` with `b > a`, a program error that aborts in checked builds) and a
failing `.unwrap()` are both modelled as `none`.
-/

namespace Hayom

/-- Leap-year rule of the embedded date library (`jiff::civil::Date`):
proleptic Gregorian for every year. -/
def isLeap (y : Int) : Bool := y % 4 == 0 && (y % 100 != 0 || y % 400 == 0)

/-- Days in month `m` (1-based) of a year with leap flag `leap`. -/
def daysInMonthB (leap : Bool) (m : Nat) : Nat :=
  match m with
  | 2 => if leap then 29 else 28
  | 4 | 6 | 9 | 11 => 30
  | _ => 31

/-- Days in months `1..=m` of a year with leap flag `leap`. -/
def cumDaysB (leap : Bool) : Nat → Nat
  | 0 => 0
  | m + 1 => cumDaysB leap m + daysInMonthB leap (m + 1)

/-- Days in month `m` of year `y`. -/
def daysInMonth (y : Int) (m : Nat) : Nat := daysInMonthB (isLeap y) m

/-- Number of days in year `y`. -/
def daysInYear (y : Int) : Nat := if isLeap y then 366 else 365

/-- A civil date, as in `jiff::civil::Date` (`Greg` in the source): a plain
(year, month, day) triple.  The library constrains years to `-9999..=9999`. -/
structure Date where
  year : Int
  month : Nat
  day : Nat
deriving DecidableEq, Repr

/-- The constructible range of `jiff::civil::Date`. -/
def Date.Valid (d : Date) : Prop :=
  -9999 ≤ d.year ∧ d.year ≤ 9999 ∧ 1 ≤ d.month ∧ d.month ≤ 12 ∧
    1 ≤ d.day ∧ d.day ≤ daysInMonth d.year d.month

instance (d : Date) : Decidable d.Valid := by
  unfold Date.Valid; infer_instance

/-- Lexicographic order on (year, month, day): the derived `Ord` of
`jiff::civil::Date`. -/
def Date.lt (a b : Date) : Prop :=
  a.year < b.year ∨ (a.year = b.year ∧
    (a.month < b.month ∨ (a.month = b.month ∧ a.day < b.day)))

instance (a b : Date) : Decidable (a.lt b) := by
  unfold Date.lt; infer_instance

/-- Non-strict lexicographic order on dates. -/
def Date.le (a b : Date) : Prop := a.lt b ∨ a = b

instance (a b : Date) : Decidable (a.le b) := by
  unfold Date.le; infer_instance

/-- One-based day of year (`Date::day_of_year` in the date library). -/
def Date.dayOfYear (d : Date) : Nat := cumDaysB (isLeap d.year) (d.month - 1) + d.day

/-- Start of the `ADJ` adjustment range: 02 September 1752. -/
def adjStart : Date := ⟨1752, 9, 2⟩

/-- End of the `ADJ` adjustment range: 14 September 1752. -/
def adjEnd : Date := ⟨1752, 9, 14⟩

/-- Containment in the `ADJ` range (`ADJ.contains(&greg)`): the closed
range 02–14 September 1752. -/
def inAdj (d : Date) : Prop := adjStart.le d ∧ d.le adjEnd

instance (d : Date) : Decidable (inAdj d) := by
  unfold inAdj; infer_instance

/-- The error enumeration of `conv.rs` (`Error::Era`, `Error::Adj`). -/
inductive Error where
  | era
  | adj
deriving DecidableEq, Repr

/-- Forward conversion `RataDie::try_from(greg)`.  The era check
(`era_year` yields `Era::CE` exactly when `year ≥ 1`) and the adjustment-gap
check run first; then the day number is computed from `py = year - 1` and the
day of year.  `none` models the `u64` underflow aborts (`rata -= 2` with
`rata < 2`; the guard on `rata -= py / 100` never fires but is kept for
faithfulness to the checked semantics). -/
def tryFrom (g : Date) : Option (Except Error Nat) :=
  if g.year < 1 then some (.error .era)
  else if inAdj g then some (.error .adj)
  else
    let py : Nat := (g.year - 1).toNat
    let rata : Nat := 365 * py + py / 4 + g.dayOfYear
    if Date.lt adjStart g then
      if rata < py / 100 then none
      else some (.ok (rata - py / 100 + py / 400))
    else
      if rata < 2 then none
      else some (.ok (rata - 2))

/-- Tail of the year/day block decomposition of `From<RataDie> for Greg`,
shared by the two calendar regimes: 4-year blocks, single years, the leap
edge case, and the final `yy += 1`.  Returns the (incremented) year total and
the 0-based day offset; `none` is the `panic!()` branch. -/
def yearDayCore (n400 n100 day2 : Nat) : Option (Nat × Nat) :=
  let n4 := day2 / 1461
  let d3 := day2 % 1461
  let n1 := d3 / 365
  let dd := d3 % 365
  let yy := 400 * n400 + 100 * n100 + 4 * n4 + n1
  if n100 = 4 ∨ n1 = 4 then
    if yy ≠ 0 then some (yy + 1, 365) else none
  else some (yy + 1, dd)

/-- Year/day block of `From<RataDie> for Greg`: `l0 = rata - 1` (underflow at
`rata = 0`, modelled as `none`), then 400/100-year decomposition with
Gregorian constants when `rata > RataDie(639795)` and Julian constants (after
`l0 += 2`) otherwise. -/
def yearDay (n : Nat) : Option (Nat × Nat) :=
  if n < 1 then none
  else if 639795 < n then
    yearDayCore ((n - 1) / 146097) (((n - 1) % 146097) / 36524)
      (((n - 1) % 146097) % 36524)
  else
    yearDayCore ((n - 1 + 2) / 146100) (((n - 1 + 2) % 146100) / 36525)
      (((n - 1 + 2) % 146100) % 36525)

/-- Rust `as i16` wrap-around cast of an unsigned value. -/
def toI16 (n : Nat) : Int := ((n : Int) + 32768) % 65536 - 32768

/-- Month/day from a 1-based day of year, scanning at most 11 month
boundaries (how `Date::new(y, 1, 1) + dd.days()` resolves inside one year). -/
def mdOfDoyAux (leap : Bool) : Nat → Nat → Nat → Nat × Nat
  | 0, m, doy => (m, doy)
  | fuel + 1, m, doy =>
    if doy ≤ daysInMonthB leap m then (m, doy)
    else mdOfDoyAux leap fuel (m + 1) (doy - daysInMonthB leap m)

/-- Month/day from a 1-based day of year in year `y`. -/
def mdOfDoy (y : Int) (doy : Nat) : Nat × Nat := mdOfDoyAux (isLeap y) 11 1 doy

/-- Inverse conversion `Greg::from(rata)`: the year/day block, the
`yy as i16` cast, `Greg::new(year, 1, 1).unwrap()` (fails outside
`-9999..=9999`, modelled as `none`) and `+ day.days()`.  The day offset is at
most 365, so the addition rolls over at most one year boundary; rolling past
year 9999 is the library's range overflow, also `none`. -/
def toDate (n : Nat) : Option Date :=
  match yearDay n with
  | none => none
  | some (yy, dd) =>
    let year := toI16 yy
    if year < -9999 ∨ 9999 < year then none
    else if dd + 1 ≤ daysInYear year then
      some ⟨year, (mdOfDoy year (dd + 1)).1, (mdOfDoy year (dd + 1)).2⟩
    else if 9999 < year + 1 then none
    else
      some ⟨year + 1, (mdOfDoy (year + 1) (dd + 1 - daysInYear year)).1,
        (mdOfDoy (year + 1) (dd + 1 - daysInYear year)).2⟩

/-- The inner decomposition aborts (reaches a Rust panic) on a day count:
either the `l0 = rata - 1` underflow at 0, or the explicit fault branch of
the leap edge case. -/
def panicReachable : Prop := ∃ n : Nat, 1 ≤ n ∧ yearDay n = none

/-- Forward day number in the Julian regime, as a function of the
zero-based prior-year count `py` and the 1-based day of year `t`. -/
def FJ (py t : Nat) : Nat := 365 * py + py / 4 + t - 2

/-- Forward day number in the Gregorian regime. -/
def FG (py t : Nat) : Nat := 365 * py + py / 4 + t - py / 100 + py / 400

/-- Gregorian leap-year rule on `Nat` years (CE years as used by the forward
conversion). -/
def isLeapN (n : Nat) : Bool := n % 4 == 0 && (n % 100 != 0 || n % 400 == 0)

/-- Days in a `Nat` CE year. -/
def daysInYearN (n : Nat) : Nat := if isLeapN n then 366 else 365

/-- Forward day number as a function of (CE year, day of year): the Julian
branch applies exactly when the date is not strictly after 02 Sep 1752,
i.e. when `(y, t)` is lexicographically at most `(1752, 246)`. -/
def FY (y t : Nat) : Nat :=
  if y < 1752 ∨ (y = 1752 ∧ t ≤ 246) then FJ (y - 1) t else FG (y - 1) t

/-- Modelled from the spec (§4.2), for the refinement claim C5: the forward
formula exactly as the specification words it — `py = year − 1`, base
`365*py + py/4 +` day-of-year, then `− py/100 + py/400` strictly after
02 September 1752 and `− 2` otherwise, in truncating integer division. -/
def specForwardFormula (d : Date) : Int :=
  let py : Int := d.year - 1
  let base : Int := 365 * py + py.tdiv 4 + (d.dayOfYear : Int)
  if Date.lt adjStart d then base - py.tdiv 100 + py.tdiv 400 else base - 2

instance : DecidableEq (Except Error Nat) := fun a b =>
  match a, b with
  | .ok x, .ok y => decidable_of_iff (x = y) (by simp)
  | .error x, .error y => decidable_of_iff (x = y) (by simp)
  | .ok _, .error _ => isFalse (by simp)
  | .error _, .ok _ => isFalse (by simp)

/-- For every day count at least 1, the year/day decomposition returns a
value: the explicit fault branch is dead code, because the year total is the
sum `400*n400 + 100*n100 + 4*n4 + n1` and the branch condition forces
`n100 = 4` or `n1 = 4`, making the total at least 4. -/
theorem yearDay_ne_none (n : Nat) (h : 1 ≤ n) : yearDay n ≠ none := by
  unfold yearDay yearDayCore
  intro hc
  rw [if_neg (by omega)] at hc
  split at hc <;> simp only at hc <;> split_ifs at hc with h1 h2 <;> simp_all

end Hayom

namespace Hayom

/-- Claim C9 (confirmed): the regression anchor of the source's test —
`toDayCount(26 Oct 2025)` succeeds with value 739550 and `toDate(739550)`
returns 26 Oct 2025. -/
theorem C9_fixed_point :
    tryFrom ⟨2025, 10, 26⟩ = some (.ok 739550) ∧
      toDate 739550 = some ⟨2025, 10, 26⟩ := by
  constructor <;> rfl

/-- Claim C1 (code bug): round trip fails on the code.  The forward
conversion maps 31 Dec 2024 (a leap-year 31 December) to 739251, but the
inverse maps 739251 to 01 Jan 2026: the leap edge case of the inverse sets
the day offset to 365 yet still increments the year total, contradicting its
own comment that in this case one must not add 1. -/
theorem C1_roundtrip_breaks :
    tryFrom ⟨2024, 12, 31⟩ = some (.ok 739251) ∧
      toDate 739251 = some ⟨2026, 1, 1⟩ ∧
      (⟨2026, 1, 1⟩ : Date) ≠ ⟨2024, 12, 31⟩ := by
  refine ⟨rfl, rfl, by decide⟩

/-- Claim C2 (counterexample): `toDayCount(15 Sep 1752)` is 639798, which is
not `toDayCount(01 Sep 1752) + 1 = 639796`. -/
theorem C2_counterexample :
    tryFrom ⟨1752, 9, 1⟩ = some (.ok 639795) ∧
      tryFrom ⟨1752, 9, 15⟩ = some (.ok 639798) ∧
      (639798 : Nat) ≠ 639795 + 1 := by
  refine ⟨rfl, rfl, by decide⟩

/-- Claim C2 (amended): `toDayCount(01 Sep 1752)` succeeds with 639795; every
date from 02 through 14 September 1752 fails with the adjustment-gap error;
`toDayCount(15 Sep 1752)` succeeds and equals `toDayCount(01 Sep 1752) + 3`
(the inclusive rejection of both boundary dates makes the day count jump by
3, not 1, across the gap). -/
theorem C2_amended :
    tryFrom ⟨1752, 9, 1⟩ = some (.ok 639795) ∧
      tryFrom ⟨1752, 9, 2⟩ = some (.error .adj) ∧
      tryFrom ⟨1752, 9, 3⟩ = some (.error .adj) ∧
      tryFrom ⟨1752, 9, 4⟩ = some (.error .adj) ∧
      tryFrom ⟨1752, 9, 5⟩ = some (.error .adj) ∧
      tryFrom ⟨1752, 9, 6⟩ = some (.error .adj) ∧
      tryFrom ⟨1752, 9, 7⟩ = some (.error .adj) ∧
      tryFrom ⟨1752, 9, 8⟩ = some (.error .adj) ∧
      tryFrom ⟨1752, 9, 9⟩ = some (.error .adj) ∧
      tryFrom ⟨1752, 9, 10⟩ = some (.error .adj) ∧
      tryFrom ⟨1752, 9, 11⟩ = some (.error .adj) ∧
      tryFrom ⟨1752, 9, 12⟩ = some (.error .adj) ∧
      tryFrom ⟨1752, 9, 13⟩ = some (.error .adj) ∧
      tryFrom ⟨1752, 9, 14⟩ = some (.error .adj) ∧
      tryFrom ⟨1752, 9, 15⟩ = some (.ok 639798) ∧
      (639798 : Nat) = 639795 + 3 := by
  repeat' constructor

/-- Claim C6 (counterexample): `toDayCount(01 Jan 0001)` does not succeed
with value 1 — it aborts on the `u64` underflow `rata -= 2` (here
`rata = 1`), modelled as `none`. -/
theorem C6_counterexample :
    tryFrom ⟨1, 1, 1⟩ = none ∧ tryFrom ⟨1, 1, 1⟩ ≠ some (.ok 1) := by
  refine ⟨rfl, by decide⟩

/-- Claim C6 (amended): the epoch anchors day count 1 at Gregorian
01 Jan 1 CE, which as an input civil date (interpreted in the Julian regime)
is 03 Jan 0001: `toDayCount(03 Jan 0001) = 1` and `toDate(1) = 03 Jan 0001`;
the input 01 Jan 0001 itself aborts on `u64` underflow instead of mapping to
day count 1. -/
theorem C6_amended :
    tryFrom ⟨1, 1, 3⟩ = some (.ok 1) ∧ toDate 1 = some ⟨1, 1, 3⟩ ∧
      tryFrom ⟨1, 1, 1⟩ = none := by
  refine ⟨rfl, rfl, rfl⟩

/-- Claim C3 (counterexample): the inverse conversion is not abort-free on
every input: at day count 0 the subtraction `rata.0 - 1` underflows `u64`
(a fatal arithmetic fault, modelled as `none`). -/
theorem C3_counterexample : toDate 0 = none := by rfl

/-- Claim C7 (counterexample): no day count reaches the edge-case branch
(`n100 == 4 || n1 == 4`) with `total_years == 0`; the source's `panic!()`
there is dead code, so the claimed reachability is false.  (Day count 0
aborts earlier, on the `rata.0 - 1` underflow, before the decomposition.) -/
theorem C7_counterexample : panicReachable = False :=
  eq_false fun ⟨n, h1, h2⟩ => yearDay_ne_none n h1 h2

/-- Claim C7 (amended): the edge-case branch itself is reachable — day count
1459 (Julian 31 Dec 0004, a leap-year 31 December) takes it with `n1 = 4`,
producing day offset 365 — but the year total is then never 0, so the
decomposition never reaches the fault: for every day count at least 1 it
returns a value. -/
theorem C7_amended :
    yearDay 1459 = some (5, 365) ∧ ∀ n : Nat, 1 ≤ n → yearDay n ≠ none := by
  exact ⟨rfl, yearDay_ne_none⟩

/-- Claim C7 (amended, witness): the universally quantified part applied at
day count 739251 (Gregorian 31 Dec 2024, which also takes the edge
branch). -/
theorem C7_amended_witness : yearDay 739251 ≠ none :=
  C7_amended.2 739251 (by decide)

/-- Claim C8 (confirmed): every input whose era is not CE (year at most 0,
i.e. any BCE date) fails with the era error — the era check runs before the
adjustment-gap check, so the result is the era error for every such date. -/
theorem C8_era_rejection (d : Date) (h : d.year ≤ 0) :
    tryFrom d = some (.error .era) := by
  unfold tryFrom
  rw [if_pos (by omega)]

/-- Claim C8 (witness): 01 Jan of year 0 (= 1 BCE) is rejected with the era
error. -/
theorem C8_era_rejection_witness :
    tryFrom ⟨0, 1, 1⟩ = some (.error .era) :=
  C8_era_rejection ⟨0, 1, 1⟩ (by decide)

/-- The leap predicate on a cast `Nat` year agrees with the `Nat` version. -/
theorem isLeap_natCast (n : Nat) : isLeap (n : Int) = isLeapN n := by
  rw [Bool.eq_iff_iff]
  simp only [isLeap, isLeapN, Bool.and_eq_true, Bool.or_eq_true, beq_iff_eq,
    bne_iff_ne, ne_eq]
  omega

/-- Arithmetic characterisation of the leap predicate. -/
theorem isLeapN_iff (n : Nat) :
    isLeapN n = true ↔ (n % 4 = 0 ∧ (¬ n % 100 = 0 ∨ n % 400 = 0)) := by
  simp only [isLeapN, Bool.and_eq_true, Bool.or_eq_true, beq_iff_eq,
    bne_iff_ne, ne_eq]

/-- Every year has at least 365 days. -/
theorem daysInYear_ge (y : Int) : 365 ≤ daysInYear y := by
  unfold daysInYear
  split <;> omega

/-- Every `Nat` year has at least 365 days. -/
theorem daysInYearN_ge (y : Nat) : 365 ≤ daysInYearN y := by
  unfold daysInYearN
  split <;> omega

/-- Months have at most 31 days. -/
theorem daysInMonthB_le31 : ∀ l : Bool, ∀ m, m < 13 → daysInMonthB l m ≤ 31 := by
  decide

/-- The day of year of a valid (month, day) pair is bounded by the year
length. -/
theorem doyB_le : ∀ l : Bool, ∀ m, m < 13 → ∀ d, d < 32 → 1 ≤ m → 1 ≤ d →
    d ≤ daysInMonthB l m →
    cumDaysB l (m - 1) + d ≤ (if l then 366 else 365) := by
  decide

/-- Cumulative month lengths are monotone. -/
theorem cumDaysB_mono (l : Bool) {a b : Nat} (h : a ≤ b) :
    cumDaysB l a ≤ cumDaysB l b := by
  induction b with
  | zero =>
    have ha : a = 0 := Nat.le_zero.mp h
    subst ha
    exact Nat.le_refl _
  | succ k ih =>
    rcases Nat.eq_or_lt_of_le h with rfl | h'
    · exact Nat.le_refl _
    · calc cumDaysB l a ≤ cumDaysB l k := ih (by omega)
        _ ≤ cumDaysB l (k + 1) := by simp only [cumDaysB]; omega

/-- Within one year, day of year is strictly monotone in the (month, day)
lexicographic order. -/
theorem doyB_strict (l : Bool) (m1 d1 m2 d2 : Nat) (hm1 : 1 ≤ m1)
    (hd1 : d1 ≤ daysInMonthB l m1) (hd2 : 1 ≤ d2)
    (h : m1 < m2 ∨ (m1 = m2 ∧ d1 < d2)) :
    cumDaysB l (m1 - 1) + d1 < cumDaysB l (m2 - 1) + d2 := by
  rcases h with h | ⟨rfl, h⟩
  · have key : cumDaysB l (m1 - 1) + daysInMonthB l m1 = cumDaysB l m1 := by
      obtain ⟨k, rfl⟩ : ∃ k, m1 = k + 1 := ⟨m1 - 1, by omega⟩
      simp [cumDaysB]
    have h2 := cumDaysB_mono l (show m1 ≤ m2 - 1 by omega)
    omega
  · omega

/-- In year 1752, being strictly after 02 September is equivalent to having
day of year at least 247. -/
theorem branch_1752 : ∀ m, m < 13 → ∀ d, d < 32 → 1 ≤ m → 1 ≤ d →
    (Date.lt adjStart ⟨1752, m, d⟩ ↔ 247 ≤ cumDaysB true (m - 1) + d) := by
  decide

/-- In year 1752, membership in the adjustment gap is equivalent to having
day of year between 246 and 258. -/
theorem gap_1752 : ∀ m, m < 13 → ∀ d, d < 32 → 1 ≤ m → 1 ≤ d →
    (inAdj ⟨1752, m, d⟩ ↔
      (246 ≤ cumDaysB true (m - 1) + d ∧ cumDaysB true (m - 1) + d ≤ 258)) := by
  decide

/-- Any date inside the adjustment gap has year 1752. -/
theorem inAdj_year (d : Date) (h : inAdj d) : d.year = 1752 := by
  obtain ⟨h1, h2⟩ := h
  rcases h1 with h1 | rfl
  · rcases h2 with h2 | rfl
    · unfold Date.lt at h1 h2
      simp only [adjStart, adjEnd] at h1 h2
      omega
    · rfl
  · rfl

/-- A date with year above 1752 is strictly after 02 Sep 1752. -/
theorem lt_adjStart_of_year (d : Date) (h : 1752 < d.year) :
    Date.lt adjStart d :=
  Or.inl h

/-- A date with year below 1752 is not strictly after 02 Sep 1752. -/
theorem not_lt_adjStart_of_year (d : Date) (h : d.year < 1752) :
    ¬ Date.lt adjStart d := by
  intro hc
  unfold Date.lt at hc
  simp only [adjStart] at hc
  omega

/-- Inversion of a successful forward conversion: the era and gap checks
passed, and the result is the regime formula of the taken branch (with the
no-underflow side condition in the Julian branch). -/
theorem tryFrom_ok_facts (d : Date) (n : Nat) (h : tryFrom d = some (.ok n)) :
    1 ≤ d.year ∧ ¬ inAdj d ∧
      ((Date.lt adjStart d ∧
          n = 365 * (d.year - 1).toNat + (d.year - 1).toNat / 4 + d.dayOfYear
              - (d.year - 1).toNat / 100 + (d.year - 1).toNat / 400) ∨
        (¬ Date.lt adjStart d ∧
          2 ≤ 365 * (d.year - 1).toNat + (d.year - 1).toNat / 4 + d.dayOfYear ∧
          n = 365 * (d.year - 1).toNat + (d.year - 1).toNat / 4 + d.dayOfYear
              - 2)) := by
  simp only [tryFrom] at h
  split_ifs at h with h1 h2 h3 h4 h5 <;> simp only [Option.some.injEq,
    Except.ok.injEq, reduceCtorEq] at h
  · exact ⟨by omega, h2, Or.inl ⟨h3, h.symm⟩⟩
  · exact ⟨by omega, h2, Or.inr ⟨h3, by omega, h.symm⟩⟩

/-- A valid date has day of year at least 1. -/
theorem doy_pos (d : Date) (hv : d.Valid) : 1 ≤ d.dayOfYear := by
  obtain ⟨-, -, -, -, h5, -⟩ := hv
  unfold Date.dayOfYear
  omega

/-- A valid date's day is below 32. -/
theorem day_lt_32 (d : Date) (hv : d.Valid) : d.day < 32 := by
  obtain ⟨-, -, -, h4, -, h6⟩ := hv
  have h31 := daysInMonthB_le31 (isLeap d.year) d.month (by omega)
  unfold daysInMonth at h6
  omega

/-- A valid CE date's day of year is bounded by its year length. -/
theorem doy_le_yearN (d : Date) (hv : d.Valid) (hy : 1 ≤ d.year) :
    d.dayOfYear ≤ daysInYearN d.year.toNat := by
  have hlt32 := day_lt_32 d hv
  obtain ⟨-, -, h3, h4, h5, h6⟩ := hv
  have hcast : ((d.year.toNat : Nat) : Int) = d.year :=
    Int.toNat_of_nonneg (by omega)
  have hb := doyB_le (isLeap d.year) d.month (by omega) d.day hlt32 h3 h5
    (by unfold daysInMonth at h6; exact h6)
  unfold Date.dayOfYear daysInYearN
  rw [← isLeap_natCast, hcast]
  exact hb

/-- Stepping to 01 January of the next year strictly increases the forward
day number (for any day of year valid in the source year). -/
theorem FY_step (y t : Nat) (hy : 1 ≤ y) (ht : 1 ≤ t)
    (hT : t ≤ daysInYearN y) : FY y t < FY (y + 1) 1 := by
  unfold daysInYearN at hT
  cases hL : isLeapN y with
  | false =>
    rw [hL] at hT
    simp only [Bool.false_eq_true, if_false] at hT
    unfold FY FJ FG
    split_ifs with c1 c2 <;> omega
  | true =>
    rw [hL] at hT
    simp only [if_true] at hT
    have hc := (isLeapN_iff y).mp hL
    unfold FY FJ FG
    split_ifs with c1 c2 <;> omega

/-- 01 January day numbers are strictly monotone in the year. -/
theorem FY_start_mono (y1 y2 : Nat) (h1 : 1 ≤ y1) (hlt : y1 < y2) :
    FY y1 1 < FY y2 1 := by
  have key : ∀ k, y1 < k → FY y1 1 < FY k 1 := by
    intro k
    induction k with
    | zero => intro h; exact absurd h (Nat.not_lt_zero y1)
    | succ k ih =>
      intro h
      rcases Nat.lt_or_ge y1 k with h' | h'
      · exact lt_trans (ih h')
          (FY_step k 1 (by omega) (by omega) (by have := daysInYearN_ge k; omega))
      · have hk : y1 = k := by omega
        subst hk
        exact FY_step y1 1 h1 (by omega) (by have := daysInYearN_ge y1; omega)
  exact key y2 hlt

/-- 01 January is the least day number within a year. -/
theorem FY_start_le (y t : Nat) (hy : 1 ≤ y) (ht : 1 ≤ t) :
    FY y 1 ≤ FY y t := by
  unfold FY FJ FG
  split_ifs with c1 c2 <;> omega

/-- Core monotonicity of the forward day number on the valid domain, in
(year, day-of-year) coordinates: the day-of-year gap constraints for 1752
and the Julian no-underflow side condition are exactly what a successful
conversion of a valid, non-gap date provides. -/
theorem FY_mono (y1 t1 y2 t2 : Nat) (hy1 : 1 ≤ y1) (ht1 : 1 ≤ t1)
    (ht2 : 1 ≤ t2) (hT1 : t1 ≤ daysInYearN y1)
    (hgap2 : y2 = 1752 → t2 ≤ 245 ∨ 259 ≤ t2)
    (hJ1 : (y1 < 1752 ∨ (y1 = 1752 ∧ t1 ≤ 246)) →
      2 ≤ 365 * (y1 - 1) + (y1 - 1) / 4 + t1)
    (hlt : y1 < y2 ∨ (y1 = y2 ∧ t1 < t2)) :
    FY y1 t1 < FY y2 t2 := by
  rcases hlt with hlt | ⟨rfl, hlt⟩
  · have s1 : FY y1 t1 < FY (y1 + 1) 1 := FY_step y1 t1 hy1 ht1 hT1
    have s2 : FY (y1 + 1) 1 ≤ FY y2 1 := by
      rcases Nat.lt_or_ge (y1 + 1) y2 with h' | h'
      · exact le_of_lt (FY_start_mono (y1 + 1) y2 (by omega) h')
      · have he : y1 + 1 = y2 := by omega
        rw [he]
    have s3 : FY y2 1 ≤ FY y2 t2 := FY_start_le y2 t2 (by omega) ht2
    omega
  · unfold FY FJ FG
    split_ifs with c1 c2 <;> omega

/-- A successful forward conversion computes `FY` at the date's (year,
day-of-year) coordinates, together with the side facts needed for
monotonicity. -/
theorem tryFrom_eq_FY (d : Date) (n : Nat) (hv : d.Valid)
    (h : tryFrom d = some (.ok n)) :
    1 ≤ d.year ∧ ¬ inAdj d ∧ n = FY d.year.toNat d.dayOfYear ∧
      ((d.year.toNat < 1752 ∨ (d.year.toNat = 1752 ∧ d.dayOfYear ≤ 246)) →
        2 ≤ 365 * (d.year.toNat - 1) + (d.year.toNat - 1) / 4 + d.dayOfYear) := by
  obtain ⟨hy, hg, hc⟩ := tryFrom_ok_facts d n h
  have hpy : (d.year - 1).toNat = d.year.toNat - 1 := by omega
  have h32 := day_lt_32 d hv
  obtain ⟨hb1, hb2, hb3, hb4, hb5, hb6⟩ := hv
  have hcond : Date.lt adjStart d ↔
      ¬ (d.year.toNat < 1752 ∨ (d.year.toNat = 1752 ∧ d.dayOfYear ≤ 246)) := by
    rcases lt_trichotomy d.year 1752 with hy' | hy' | hy'
    · constructor
      · intro hl
        exact absurd hl (not_lt_adjStart_of_year d hy')
      · intro hr
        exact absurd (Or.inl (by omega)) hr
    · have hL : isLeap d.year = true := by rw [hy']; decide
      have hdoy : d.dayOfYear = cumDaysB true (d.month - 1) + d.day := by
        unfold Date.dayOfYear
        rw [hL]
      have hdeq : (⟨1752, d.month, d.day⟩ : Date) = d := by rw [← hy']
      have hb := branch_1752 d.month (by omega) d.day h32 hb3 hb5
      rw [hdeq] at hb
      have hyn : d.year.toNat = 1752 := by omega
      rw [hb, hdoy, hyn]
      omega
    · constructor
      · intro _
        omega
      · intro _
        exact lt_adjStart_of_year d hy'
  refine ⟨hy, hg, ?_, ?_⟩
  · rcases hc with ⟨hbr, hn⟩ | ⟨hbr, hund, hn⟩
    · unfold FY
      rw [if_neg (hcond.mp hbr)]
      unfold FG
      rw [hn, hpy]
    · have hcyes : d.year.toNat < 1752 ∨ (d.year.toNat = 1752 ∧ d.dayOfYear ≤ 246) := by
        by_contra hcc
        exact hbr (hcond.mpr hcc)
      unfold FY
      rw [if_pos hcyes]
      unfold FJ
      rw [hn, hpy]
  · intro hin
    rcases hc with ⟨hbr, hn⟩ | ⟨hbr, hund, hn⟩
    · exact absurd hin (hcond.mp hbr)
    · omega

/-- A valid CE date of year 1752 outside the adjustment gap has day of year
at most 245 or at least 259. -/
theorem gap_doy (d : Date) (hv : d.Valid) (hy : 1 ≤ d.year) (hg : ¬ inAdj d) :
    d.year.toNat = 1752 → d.dayOfYear ≤ 245 ∨ 259 ≤ d.dayOfYear := by
  intro h1752
  have hy' : d.year = 1752 := by omega
  have h32 := day_lt_32 d hv
  obtain ⟨hb1, hb2, hb3, hb4, hb5, hb6⟩ := hv
  have hL : isLeap d.year = true := by rw [hy']; decide
  have hdoy : d.dayOfYear = cumDaysB true (d.month - 1) + d.day := by
    unfold Date.dayOfYear
    rw [hL]
  have hdeq : (⟨1752, d.month, d.day⟩ : Date) = d := by rw [← hy']
  have hgiff := gap_1752 d.month (by omega) d.day h32 hb3 hb5
  rw [hdeq] at hgiff
  have hnot : ¬ (246 ≤ cumDaysB true (d.month - 1) + d.day ∧
      cumDaysB true (d.month - 1) + d.day ≤ 258) := fun hx => hg (hgiff.mpr hx)
  rw [hdoy]
  omega

/-- Claim C4 (amended): the forward conversion is strictly monotone — hence
injective — over every pair of valid dates on which it succeeds (it succeeds
on every valid CE date outside the gap except 01 Jan 0001, where it aborts
on underflow): if `d1 < d2` and both convert, the day count of `d1` is
strictly below that of `d2`. -/
theorem C4_amended (d1 d2 : Date) (n1 n2 : Nat) (hv1 : d1.Valid)
    (hv2 : d2.Valid) (h1 : tryFrom d1 = some (.ok n1))
    (h2 : tryFrom d2 = some (.ok n2)) (hlt : Date.lt d1 d2) : n1 < n2 := by
  obtain ⟨hy1, hg1, heq1, hJ1⟩ := tryFrom_eq_FY d1 n1 hv1 h1
  obtain ⟨hy2, hg2, heq2, hJ2⟩ := tryFrom_eq_FY d2 n2 hv2 h2
  rw [heq1, heq2]
  refine FY_mono d1.year.toNat d1.dayOfYear d2.year.toNat d2.dayOfYear
    (by omega) (doy_pos d1 hv1) (doy_pos d2 hv2) (doy_le_yearN d1 hv1 hy1)
    (gap_doy d2 hv2 hy2 hg2) hJ1 ?_
  unfold Date.lt at hlt
  rcases hlt with hlt | ⟨hyy, hmd⟩
  · left
    omega
  · right
    refine ⟨by omega, ?_⟩
    have hleq : isLeap d1.year = isLeap d2.year := by rw [hyy]
    obtain ⟨-, -, hm3, -, -, hm6⟩ := hv1
    obtain ⟨-, -, -, -, hn5, -⟩ := hv2
    unfold Date.dayOfYear
    rw [hleq]
    unfold daysInMonth at hm6
    exact doyB_strict (isLeap d2.year) d1.month d1.day d2.month d2.day hm3
      (by rw [← hleq]; exact hm6) hn5 hmd

/-- Claim C4 (counterexample): 01 Jan 0001 and 03 Jan 0001 are valid CE
dates outside the gap with the first strictly smaller, yet the forward
conversion of the first produces no day count at all (it aborts on `u64`
underflow), so the claimed comparison of day counts has no left-hand
value. -/
theorem C4_counterexample :
    (⟨1, 1, 1⟩ : Date).Valid ∧ (⟨1, 1, 3⟩ : Date).Valid ∧
      ¬ inAdj (⟨1, 1, 1⟩ : Date) ∧ ¬ inAdj (⟨1, 1, 3⟩ : Date) ∧
      Date.lt ⟨1, 1, 1⟩ ⟨1, 1, 3⟩ ∧ tryFrom ⟨1, 1, 1⟩ = none ∧
      tryFrom ⟨1, 1, 3⟩ = some (.ok 1) := by
  decide

/-- Claim C4 (amended, witness): 26 Oct 2025 and 27 Oct 2025. -/
theorem C4_amended_witness :
    tryFrom ⟨2025, 10, 26⟩ = some (.ok 739550) ∧
      tryFrom ⟨2025, 10, 27⟩ = some (.ok 739551) ∧ (739550 : Nat) < 739551 :=
  ⟨rfl, rfl, C4_amended ⟨2025, 10, 26⟩ ⟨2025, 10, 27⟩ 739550 739551
    (by decide) (by decide) rfl rfl (by decide)⟩

/-- Claim C5 (confirmed): on every date where the forward conversion
succeeds, the resulting day count equals the specification's formula —
`py = year − 1`, `365*py + py/4 +` day-of-year, then `− py/100 + py/400`
strictly after 02 Sep 1752 and `− 2` otherwise, in truncating integer
division. -/
theorem C5_forward_formula (d : Date) (n : Nat)
    (h : tryFrom d = some (.ok n)) : (n : Int) = specForwardFormula d := by
  obtain ⟨hy, -, hc⟩ := tryFrom_ok_facts d n h
  have h0 : (0 : Int) ≤ d.year - 1 := by omega
  simp only [specForwardFormula]
  rw [Int.tdiv_eq_ediv h0 (by omega : (0 : Int) ≤ 4),
    Int.tdiv_eq_ediv h0 (by omega : (0 : Int) ≤ 100),
    Int.tdiv_eq_ediv h0 (by omega : (0 : Int) ≤ 400)]
  rcases hc with ⟨hbr, hn⟩ | ⟨hbr, hund, hn⟩
  · rw [if_pos hbr, hn]
    omega
  · rw [if_neg hbr, hn]
    omega

/-- Claim C5 (witness): the formula applied at 26 Oct 2025. -/
theorem C5_forward_formula_witness :
    ((739550 : Nat) : Int) = specForwardFormula ⟨2025, 10, 26⟩ :=
  C5_forward_formula ⟨2025, 10, 26⟩ 739550 rfl

/-- The `as i16` cast is the identity below `2^15`. -/
theorem toI16_eq (n : Nat) (h : n ≤ 32767) : toI16 n = (n : Int) := by
  unfold toI16
  omega

/-- On any returned value of the year/day block, the year is incremented (so
at least 1) and the day offset is at most 365. -/
theorem yearDay_some_facts (n yy dd : Nat) (h : yearDay n = some (yy, dd)) :
    1 ≤ yy ∧ dd ≤ 365 := by
  simp only [yearDay, yearDayCore] at h
  split_ifs at h <;>
    simp only [Option.some.injEq, Prod.mk.injEq, reduceCtorEq] at h <;> omega

/-- For day counts from 1 up to 3652059 (= 31 Dec 9999), the year/day block
succeeds, the year stays within the date library's range, and the roll-over
case cannot land past year 9999. -/
theorem yearDay_facts (n : Nat) (h1 : 1 ≤ n) (h2 : n ≤ 3652059) :
    ∃ yy dd, yearDay n = some (yy, dd) ∧ 1 ≤ yy ∧ yy ≤ 9999 ∧ dd ≤ 365 ∧
      (dd = 365 → yy ≤ 9998) := by
  simp only [yearDay, yearDayCore]
  rw [if_neg (by omega)]
  split_ifs with hr he hz he' hz'
  · exact ⟨_, _, rfl, by omega, by omega, by omega, by omega⟩
  · exfalso
    omega
  · exact ⟨_, _, rfl, by omega, by omega, by omega, by omega⟩
  · exact ⟨_, _, rfl, by omega, by omega, by omega, by omega⟩
  · exfalso
    omega
  · exact ⟨_, _, rfl, by omega, by omega, by omega, by omega⟩

/-- Claim C3 (amended): the inverse conversion is total and abort-free on
every day count from 1 through 3652059 (the count of 31 Dec 9999, the last
date the library can represent): it returns exactly one civil date, and in
particular the explicit fault branch of the leap edge case is never taken.
(Input 0 aborts on underflow, and counts past 3652059 leave the library's
year range.) -/
theorem C3_amended (n : Nat) (h1 : 1 ≤ n) (h2 : n ≤ 3652059) :
    (toDate n).isSome = true := by
  obtain ⟨yy, dd, hEq, hy1, hy2, hdd, hroll⟩ := yearDay_facts n h1 h2
  have h365 := daysInYear_ge ((yy : Nat) : Int)
  simp only [toDate, hEq]
  rw [toI16_eq yy (by omega)]
  split_ifs with ha hb hc
  · exfalso
    omega
  · rfl
  · exfalso
    omega
  · rfl

/-- Claim C3 (amended, witness): the inverse succeeds at day count
739550. -/
theorem C3_amended_witness : (toDate 739550).isSome = true :=
  C3_amended 739550 (by decide) (by decide)

/-- Claim C10 (confirmed): for every day count at least 1 whose year/day
decomposition stays within the library's year range (year at most 9999),
the returned civil date has year at least 1 — the block-year total is
always incremented by 1 before the date is built, so year 0 or below is
never produced. -/
theorem C10_year_positive (n yy dd : Nat) (d : Date) (_h1 : 1 ≤ n)
    (hEq : yearDay n = some (yy, dd)) (hyy : yy ≤ 9999)
    (hd : toDate n = some d) : 1 ≤ d.year := by
  obtain ⟨hpos, hdd⟩ := yearDay_some_facts n yy dd hEq
  simp only [toDate, hEq] at hd
  rw [toI16_eq yy (by omega)] at hd
  split_ifs at hd with ha hb hc <;>
    simp only [Option.some.injEq, reduceCtorEq] at hd <;>
    rw [← hd] <;> dsimp only <;> omega

/-- Claim C10 (witness): day count 739550 decomposes to year 2025, and the
returned date 26 Oct 2025 has positive year. -/
theorem C10_year_positive_witness : 1 ≤ (Date.mk 2025 10 26).year :=
  C10_year_positive 739550 2025 298 ⟨2025, 10, 26⟩ (by decide) rfl
    (by decide) rfl

end Hayom
